import Mathlib

/- Shallow embedding of the enrollment/progress synchronization core of the
next-wp repository: the local progress store (`lib/tutor-enrollment.ts`) and
the sync coordinator (`lib/tutor-enrollment-sync.ts`).

Modelling conventions:
* ISO-8601 timestamp strings are abstracted to `Nat` values; a stored
  timestamp string is nonempty, hence always truthy in JavaScript, so a
  stored timestamp is a plain `Nat` while a possibly-missing one is
  `Option Nat`.
* A JavaScript `number | undefined` user id is `Option Nat`.  The JS
  truthiness test `!userId` (true for `undefined` and for `0`) is
  `userFalsy`.
* `Partial<...>` patch objects become structures of `Option` fields where
  `none` means the key is absent from the patch object.  (A key present
  with an explicitly `undefined` value is not modelled.)
* JS `Array.find`/`findIndex` return the first match; the store update
  helpers are written as structural recursion replacing the first matching
  record in place, and `push` appends at the end.
* Remote calls are parametrized by their outcome (success envelope,
  failure envelope, or thrown error); `localStorage` is modelled as always
  available (the store degrades to a no-op otherwise, which none of the
  claims concern).
-/

def userFalsy : Option Nat → Bool
  | none => true
  | some u => u == 0

def userTruthy (u : Option Nat) : Bool := !userFalsy u

inductive EnrollMethod
  | free
  | purchase
  | admin
deriving Repr, DecidableEq

structure EnrollmentData where
  courseId : Nat
  userId : Option Nat
  enrollmentMethod : EnrollMethod
  timestamp : Nat
deriving Repr, DecidableEq

structure CourseProgress where
  courseId : Nat
  userId : Option Nat
  completedLessons : List Nat
  completedQuizzes : List Nat
  completedAssignments : List Nat
  overallProgress : Int
  lastAccessed : Nat
  startDate : Nat
  completionDate : Option Nat
deriving Repr, DecidableEq

structure LessonProgress where
  lessonId : Nat
  courseId : Nat
  userId : Option Nat
  isCompleted : Bool
  progressPercentage : Int
  timeSpent : Nat
  lastPosition : Option Nat
  accessedAt : Nat
  completedAt : Option Nat
deriving Repr, DecidableEq

structure Store where
  enrollments : List EnrollmentData
  courseProgress : List CourseProgress
  lessonProgress : List LessonProgress
deriving Repr, DecidableEq

def emptyStore : Store := ⟨[], [], []⟩

/- The record-matching predicates.  Source pattern (used identically for all
three collections): `x.courseId === courseId && (!userId || x.userId === userId)`. -/

def enrollMatches (courseId : Nat) (userId : Option Nat) (e : EnrollmentData) : Bool :=
  e.courseId == courseId && (userFalsy userId || e.userId == userId)

def cpMatches (courseId : Nat) (userId : Option Nat) (p : CourseProgress) : Bool :=
  p.courseId == courseId && (userFalsy userId || p.userId == userId)

def lpMatches (lessonId courseId : Nat) (userId : Option Nat) (p : LessonProgress) : Bool :=
  p.lessonId == lessonId && p.courseId == courseId && (userFalsy userId || p.userId == userId)

/- `isEnrolledInCourse` in tutor-enrollment.ts. -/
def isEnrolledInCourse (courseId : Nat) (userId : Option Nat) (s : Store) : Bool :=
  s.enrollments.any (enrollMatches courseId userId)

/- `getCourseProgress` in tutor-enrollment.ts (local store read). -/
def getCourseProgress (courseId : Nat) (userId : Option Nat) (s : Store) : Option CourseProgress :=
  s.courseProgress.find? (cpMatches courseId userId)

def zeroProgress (courseId : Nat) (userId : Option Nat) (now : Nat) : CourseProgress :=
  { courseId := courseId
    userId := userId
    completedLessons := []
    completedQuizzes := []
    completedAssignments := []
    overallProgress := 0
    lastAccessed := now
    startDate := now
    completionDate := none }

/- `initializeCourseProgress` in tutor-enrollment.ts. -/
def initCourseProgress (courseId : Nat) (userId : Option Nat) (now : Nat) (s : Store) : Store :=
  match s.courseProgress.find? (cpMatches courseId userId) with
  | some _ => s
  | none => { s with courseProgress := s.courseProgress ++ [zeroProgress courseId userId now] }

/- `enrollInFreeCourse` in tutor-enrollment.ts.  The promise resolves `true`
both when already enrolled and after inserting a new enrollment; the
`catch`/`resolve(false)` path fires only on a localStorage serialization
fault, which is outside the model. -/
def enrollInFreeCourse (courseId : Nat) (userId : Option Nat) (now : Nat) (s : Store) :
    Bool × Store :=
  if isEnrolledInCourse courseId userId s then (true, s)
  else
    let s1 := { s with enrollments :=
      s.enrollments ++ [⟨courseId, userId, EnrollMethod.free, now⟩] }
    (true, initCourseProgress courseId userId now s1)

/- `unenrollFromCourse` in tutor-enrollment.ts (also removes course progress
via `removeCourseProgress`). -/
def unenrollFromCourse (courseId : Nat) (userId : Option Nat) (s : Store) : Bool × Store :=
  let s1 := { s with enrollments :=
    s.enrollments.filter (fun e => !enrollMatches courseId userId e) }
  (true, { s1 with courseProgress :=
    s1.courseProgress.filter (fun p => !cpMatches courseId userId p) })

/- `Partial<CourseProgress>` patch.  The source merges
`{...record, ...updates, lastAccessed: now}`, so a `lastAccessed` key in the
patch is always overwritten and is not modelled. -/
structure CPPatch where
  courseId : Option Nat := none
  userId : Option (Option Nat) := none
  completedLessons : Option (List Nat) := none
  completedQuizzes : Option (List Nat) := none
  completedAssignments : Option (List Nat) := none
  overallProgress : Option Int := none
  startDate : Option Nat := none
  completionDate : Option (Option Nat) := none
deriving Repr, DecidableEq

def applyCPPatch (r : CourseProgress) (p : CPPatch) (now : Nat) : CourseProgress :=
  { courseId := p.courseId.getD r.courseId
    userId := p.userId.getD r.userId
    completedLessons := p.completedLessons.getD r.completedLessons
    completedQuizzes := p.completedQuizzes.getD r.completedQuizzes
    completedAssignments := p.completedAssignments.getD r.completedAssignments
    overallProgress := p.overallProgress.getD r.overallProgress
    lastAccessed := now
    startDate := p.startDate.getD r.startDate
    completionDate := p.completionDate.getD r.completionDate }

def updCPList (courseId : Nat) (userId : Option Nat) (p : CPPatch) (now : Nat) :
    List CourseProgress → List CourseProgress
  | [] => []
  | r :: rs =>
      if cpMatches courseId userId r then applyCPPatch r p now :: rs
      else r :: updCPList courseId userId p now rs

/- `updateCourseProgress` in tutor-enrollment.ts: merges the patch into the
first matching record and refreshes `lastAccessed`; a no-op when no record
matches (`findIndex` returns -1). -/
def updateCourseProgress (courseId : Nat) (p : CPPatch) (userId : Option Nat) (now : Nat)
    (s : Store) : Store :=
  { s with courseProgress := updCPList courseId userId p now s.courseProgress }

/- `Partial<LessonProgress>` patch. -/
structure LPPatch where
  lessonId : Option Nat := none
  courseId : Option Nat := none
  userId : Option (Option Nat) := none
  isCompleted : Option Bool := none
  progressPercentage : Option Int := none
  timeSpent : Option Nat := none
  lastPosition : Option Nat := none
  accessedAt : Option Nat := none
  completedAt : Option Nat := none
deriving Repr, DecidableEq

/- Update branch of `updateLessonProgress`:
`{...record, ...updates, accessedAt: now}` — `accessedAt` is set after the
patch spread, so it is `now` regardless of the patch. -/
def applyLPPatch (r : LessonProgress) (p : LPPatch) (now : Nat) : LessonProgress :=
  { lessonId := p.lessonId.getD r.lessonId
    courseId := p.courseId.getD r.courseId
    userId := p.userId.getD r.userId
    isCompleted := p.isCompleted.getD r.isCompleted
    progressPercentage := p.progressPercentage.getD r.progressPercentage
    timeSpent := p.timeSpent.getD r.timeSpent
    lastPosition := match p.lastPosition with | some v => some v | none => r.lastPosition
    accessedAt := now
    completedAt := match p.completedAt with | some v => some v | none => r.completedAt }

/- Insert branch of `updateLessonProgress`: the object literal spreads the
patch last, so patch keys override the defaults, including `accessedAt` and
the identity fields. -/
def freshLPRecord (lessonId courseId : Nat) (userId : Option Nat) (p : LPPatch) (now : Nat) :
    LessonProgress :=
  { lessonId := p.lessonId.getD lessonId
    courseId := p.courseId.getD courseId
    userId := p.userId.getD userId
    isCompleted := p.isCompleted.getD false
    progressPercentage := p.progressPercentage.getD 0
    timeSpent := p.timeSpent.getD 0
    lastPosition := p.lastPosition
    accessedAt := p.accessedAt.getD now
    completedAt := p.completedAt }

def updLPList (lessonId courseId : Nat) (userId : Option Nat) (p : LPPatch) (now : Nat) :
    List LessonProgress → List LessonProgress
  | [] => [freshLPRecord lessonId courseId userId p now]
  | r :: rs =>
      if lpMatches lessonId courseId userId r then applyLPPatch r p now :: rs
      else r :: updLPList lessonId courseId userId p now rs

/- `updateLessonProgress` in tutor-enrollment.ts. -/
def updateLessonProgress (lessonId courseId : Nat) (p : LPPatch) (userId : Option Nat)
    (now : Nat) (s : Store) : Store :=
  { s with lessonProgress := updLPList lessonId courseId userId p now s.lessonProgress }

def completeLP (r : LessonProgress) (now : Nat) : LessonProgress :=
  { r with isCompleted := true, progressPercentage := 100,
           completedAt := some now, accessedAt := now }

def freshCompletedLP (lessonId courseId : Nat) (userId : Option Nat) (now : Nat) :
    LessonProgress :=
  { lessonId := lessonId
    courseId := courseId
    userId := userId
    isCompleted := true
    progressPercentage := 100
    timeSpent := 0
    lastPosition := none
    accessedAt := now
    completedAt := some now }

def markLPList (lessonId courseId : Nat) (userId : Option Nat) (now : Nat) :
    List LessonProgress → List LessonProgress
  | [] => [freshCompletedLP lessonId courseId userId now]
  | r :: rs =>
      if lpMatches lessonId courseId userId r then completeLP r now :: rs
      else r :: markLPList lessonId courseId userId now rs

/- `Math.round (n / d)` for nonnegative integers n, d > 0:
`round x = floor (x + 1/2)`. -/
def jsRound (n d : Nat) : Nat := (2 * n + d) / (2 * d)

/- `calculateOverallProgress` in tutor-enrollment.ts: completed-item count
over `Math.max(count, 10)`, rounded and clamped by `Math.min(..., 100)`.
Division happens in JS doubles; the ratio here is computed exactly, which
agrees with `Math.round` on all values the claims touch. -/
def calculateOverallProgress (courseId : Nat) (userId : Option Nat) (s : Store) : Int :=
  match getCourseProgress courseId userId s with
  | none => 0
  | some cp =>
      let total := cp.completedLessons.length + cp.completedQuizzes.length +
        cp.completedAssignments.length
      let est := max total 10
      ((min (jsRound (total * 100) est) 100 : Nat) : Int)

/- `getLessonProgress` in tutor-enrollment.ts. -/
def getLessonProgress (lessonId courseId : Nat) (userId : Option Nat) (s : Store) :
    Option LessonProgress :=
  s.lessonProgress.find? (lpMatches lessonId courseId userId)

/- `isLessonCompleted` in tutor-enrollment.ts: `progress?.isCompleted || false`. -/
def isLessonCompleted (lessonId courseId : Nat) (userId : Option Nat) (s : Store) : Bool :=
  match getLessonProgress lessonId courseId userId s with
  | some p => p.isCompleted
  | none => false

/- `markLessonCompleted` in tutor-enrollment.ts.  The course-progress step
runs only when a matching CourseProgress record already exists, and the
`overallProgress` value passed to `updateCourseProgress` is computed by
`calculateOverallProgress` BEFORE the new `completedLessons` list is
persisted, i.e. from the still-stored old record. -/
def markLessonCompleted (lessonId courseId : Nat) (userId : Option Nat) (now : Nat)
    (s : Store) : Store :=
  let s1 := { s with lessonProgress := markLPList lessonId courseId userId now s.lessonProgress }
  match getCourseProgress courseId userId s1 with
  | none => s1
  | some cp =>
      let newLessons :=
        if cp.completedLessons.contains lessonId then cp.completedLessons
        else cp.completedLessons ++ [lessonId]
      let overall := calculateOverallProgress courseId userId s1
      updateCourseProgress courseId
        { completedLessons := some newLessons, overallProgress := some overall } userId now s1

/- ======================= Sync Coordinator =======================
`TutorEnrollmentSync` in lib/tutor-enrollment-sync.ts.  The coordinator
state holds the presence of an API client, the bound user id, the
connectivity flag, the retry queue and the shared local store.  The retry
queue stores closures that replay a single remote call; they are modelled
as a tagged operation (the closures capture exactly an operation kind plus
its parameters and touch only the remote API, never the local store). -/

inductive SyncOp
  | enrollOp (courseId : Nat)
  | lessonOp (lessonId courseId : Nat)
deriving Repr, DecidableEq

structure SyncState where
  hasApiClient : Bool
  userId : Option Nat
  isOnline : Bool
  syncQueue : List SyncOp
  store : Store
deriving Repr, DecidableEq

/- The guard `this.isOnline && this.apiClient && this.userId` used by every
remote-capable branch (`userId` is tested for JS truthiness, so user id 0
forces local-only mode). -/
def remoteCapable (st : SyncState) : Bool :=
  st.isOnline && st.hasApiClient && userTruthy st.userId

/- Outcome of one remote call: success envelope, envelope with
`success: false`, or a thrown/rejected error. -/
inductive RemoteOutcome
  | ok
  | errEnvelope
  | thrown
deriving Repr, DecidableEq

/- Outcome of a remote fetch returning data: success envelope carrying
data, an unsuccessful (or data-less) envelope, or a thrown error. -/
inductive FetchOutcome (α : Type)
  | ok (data : α)
  | fail
  | thrown
deriving Repr, DecidableEq

/- `TutorEnrollmentSync.enrollInFreeCourse`.  Local enroll first (always
resolves true in the model, see `enrollInFreeCourse`); then, when remote
capable, an unsuccessful envelope or a thrown error queue a retry closure;
when not remote capable the retry closure is queued unconditionally. -/
def syncEnroll (courseId : Nat) (remote : RemoteOutcome) (now : Nat) (st : SyncState) :
    Bool × SyncState :=
  let r := enrollInFreeCourse courseId st.userId now st.store
  if !r.1 then (false, { st with store := r.2 })
  else
    let st1 := { st with store := r.2 }
    if remoteCapable st then
      match remote with
      | RemoteOutcome.ok => (true, st1)
      | _ => (true, { st1 with syncQueue := st1.syncQueue ++ [SyncOp.enrollOp courseId] })
    else
      (true, { st1 with syncQueue := st1.syncQueue ++ [SyncOp.enrollOp courseId] })

/- `TutorEnrollmentSync.markLessonCompleted`: same queueing discipline as
`syncEnroll`, local mutation first, returns nothing. -/
def syncMarkLessonCompleted (lessonId courseId : Nat) (remote : RemoteOutcome) (now : Nat)
    (st : SyncState) : SyncState :=
  let st1 := { st with store := markLessonCompleted lessonId courseId st.userId now st.store }
  if remoteCapable st then
    match remote with
    | RemoteOutcome.ok => st1
    | _ => { st1 with syncQueue := st1.syncQueue ++ [SyncOp.lessonOp lessonId courseId] }
  else
    { st1 with syncQueue := st1.syncQueue ++ [SyncOp.lessonOp lessonId courseId] }

/- The drain loop of `processSyncQueue`: iterate over the captured snapshot
in order, awaiting each closure inside a per-entry try/catch; a failed
(throwing) entry is pushed onto the live queue.  The first component
accumulates the live queue, the second logs every attempted operation
(each snapshot entry is awaited exactly once, in order). -/
def drainLoop (f : SyncOp → Bool) : List SyncOp → List SyncOp → List SyncOp →
    List SyncOp × List SyncOp
  | [], live, att => (live, att)
  | op :: rest, live, att =>
      if f op then drainLoop f rest live (att ++ [op])
      else drainLoop f rest (live ++ [op]) (att ++ [op])

/- `TutorEnrollmentSync.processSyncQueue`.  Guard: `!isOnline || !apiClient`
returns immediately (no user-id check here).  Otherwise the live queue is
snapshotted and cleared, then every captured entry is attempted; `f op`
tells whether the replayed remote call resolves (true) or throws (false).
Returns the new state together with the log of attempted operations. -/
def processSyncQueue (f : SyncOp → Bool) (st : SyncState) : List SyncOp × SyncState :=
  if st.isOnline && st.hasApiClient then
    let r := drainLoop f st.syncQueue [] []
    (r.2, { st with syncQueue := r.1 })
  else
    ([], st)

structure SyncedCounts where
  enrollments : Nat
  progress : Nat
  lessons : Nat
deriving Repr, DecidableEq

structure SyncResult where
  success : Bool
  error : Option String
  synced : SyncedCounts
deriving Repr, DecidableEq

def noConnectionResult : SyncResult :=
  { success := false
    error := some "No server connection or authentication"
    synced := ⟨0, 0, 0⟩ }

/- `TutorEnrollmentSync.syncToServer`.  When not remote capable it fails
closed.  Otherwise it awaits `processSyncQueue` and then reports
`this.syncQueue.length` — the length of the live queue AFTER the drain —
as `synced.enrollments`.  `processSyncQueue` catches every per-entry error
itself, so the surrounding try/catch never takes its catch branch. -/
def syncToServer (f : SyncOp → Bool) (st : SyncState) : SyncResult × SyncState :=
  if !remoteCapable st then (noConnectionResult, st)
  else
    let r := processSyncQueue f st
    ({ success := true
       error := none
       synced := ⟨r.2.syncQueue.length, 0, 0⟩ }, r.2)

/- `TutorEnrollmentSync.syncFromServer`.  Fails closed when not remote
capable; otherwise fetches the user's enrollment and progress lists and
reports only their lengths (no merge into the local store); a thrown fetch
is caught and converted into a failure result. -/
def syncFromServer (eResp pResp : FetchOutcome (List Nat)) (st : SyncState) :
    SyncResult × SyncState :=
  if !remoteCapable st then (noConnectionResult, st)
  else
    match eResp with
    | FetchOutcome.thrown =>
        ({ success := false, error := some "Sync failed", synced := ⟨0, 0, 0⟩ }, st)
    | _ =>
        let eCount := match eResp with | FetchOutcome.ok l => l.length | _ => 0
        match pResp with
        | FetchOutcome.thrown =>
            ({ success := false, error := some "Sync failed", synced := ⟨0, 0, 0⟩ }, st)
        | _ =>
            let pCount := match pResp with | FetchOutcome.ok l => l.length | _ => 0
            ({ success := true, error := none, synced := ⟨eCount, pCount, 0⟩ }, st)

/- The shape of a successful remote `getCourseProgress` payload.  The
envelope's `data` is typed `CourseProgress` but consumed defensively with
`||` fallbacks, so every field may be absent: `none` models an
absent/null/undefined field. -/
structure RemoteProgress where
  completedLessons : Option (List Nat) := none
  completedQuizzes : Option (List Nat) := none
  completedAssignments : Option (List Nat) := none
  overallProgress : Option Int := none
  lastAccessed : Option Nat := none
  startDate : Option Nat := none
  completionDate : Option Nat := none
deriving Repr, DecidableEq

/- JS `a || b` where `a` is a possibly-absent number: `0` is falsy, so a
present zero still falls through to the fallback. -/
def jsNumOr (a : Option Int) (b : Int) : Int :=
  match a with
  | some v => if v == 0 then b else v
  | none => b

/- The merge object literal in `TutorEnrollmentSync.getCourseProgress`
(server takes precedence field by field, via JS `||`): a present array is
truthy even when empty; a present number wins only when nonzero; stored
timestamp strings are always truthy. -/
def mergeProgress (courseId : Nat) (userId : Option Nat) (localP : Option CourseProgress)
    (r : RemoteProgress) (now : Nat) : CourseProgress :=
  { courseId := courseId
    userId := userId
    completedLessons :=
      match r.completedLessons with
      | some x => x
      | none => match localP with | some lp => lp.completedLessons | none => []
    completedQuizzes :=
      match r.completedQuizzes with
      | some x => x
      | none => match localP with | some lp => lp.completedQuizzes | none => []
    completedAssignments :=
      match r.completedAssignments with
      | some x => x
      | none => match localP with | some lp => lp.completedAssignments | none => []
    overallProgress :=
      jsNumOr r.overallProgress (jsNumOr (localP.map (fun lp => lp.overallProgress)) 0)
    lastAccessed :=
      match r.lastAccessed with
      | some x => x
      | none => match localP with | some lp => lp.lastAccessed | none => now
    startDate :=
      match r.startDate with
      | some x => x
      | none => match localP with | some lp => lp.startDate | none => now
    completionDate :=
      match r.completionDate with
      | some x => some x
      | none => localP.bind (fun lp => lp.completionDate) }

/- The merged record is written back through `updateCourseProgress` with the
full record as the patch; every key of the literal is present, so every
field of the matched record is overwritten (and `lastAccessed` is then
refreshed to now by `updateCourseProgress` itself). -/
def toCPPatch (m : CourseProgress) : CPPatch :=
  { courseId := some m.courseId
    userId := some m.userId
    completedLessons := some m.completedLessons
    completedQuizzes := some m.completedQuizzes
    completedAssignments := some m.completedAssignments
    overallProgress := some m.overallProgress
    startDate := some m.startDate
    completionDate := some m.completionDate }

/- `TutorEnrollmentSync.getCourseProgress`: read local, and when remote
capable and the remote call yields a successful envelope with data, build
the merged record, persist it locally, and return it; on an unsuccessful
envelope, missing data, or a thrown error, return the local record. -/
def syncGetCourseProgress (courseId : Nat) (resp : FetchOutcome RemoteProgress) (now : Nat)
    (st : SyncState) : Option CourseProgress × SyncState :=
  let localP := getCourseProgress courseId st.userId st.store
  if remoteCapable st then
    match resp with
    | FetchOutcome.ok r =>
        let merged := mergeProgress courseId st.userId localP r now
        let store1 := updateCourseProgress courseId (toCPPatch merged) st.userId now st.store
        (some merged, { st with store := store1 })
    | _ => (localP, st)
  else
    (localP, st)

/- ======================= Helper lemmas ======================= -/

theorem drainLoop_eq (f : SyncOp → Bool) :
    ∀ (q live att : List SyncOp),
      drainLoop f q live att = (live ++ q.filter (fun op => !f op), att ++ q) := by
  intro q
  induction q with
  | nil => intro live att; simp [drainLoop]
  | cons op rest ih =>
      intro live att
      by_cases h : f op = true
      · simp [drainLoop, h, ih, List.filter_cons]
      · replace h : f op = false := by simpa using h
        simp [drainLoop, h, ih, List.filter_cons]

theorem count_filter_not (f : SyncOp → Bool) (op : SyncOp) (h : f op = false) :
    ∀ q : List SyncOp, (q.filter (fun o => !f o)).count op = q.count op := by
  intro q
  induction q with
  | nil => rfl
  | cons o rest ih =>
      by_cases ho : f o = true
      · have hne : o ≠ op := by
          intro he; rw [he] at ho; rw [ho] at h; exact Bool.noConfusion h
        simp [List.filter_cons, ho, List.count_cons, ih, hne]
      · replace ho : f o = false := by simpa using ho
        simp [List.filter_cons, ho, List.count_cons, ih]

theorem userFalsy_or_self (u : Option Nat) : (userFalsy u || u == u) = true := by
  cases u <;> simp [userFalsy]

theorem lpMatches_completeLP (l c : Nat) (u : Option Nat) (r : LessonProgress) (now : Nat) :
    lpMatches l c u (completeLP r now) = lpMatches l c u r := by
  simp [lpMatches, completeLP]

theorem lpMatches_fresh_self (l c : Nat) (u : Option Nat) (now : Nat) :
    lpMatches l c u (freshCompletedLP l c u now) = true := by
  simp [lpMatches, freshCompletedLP, userFalsy_or_self]

theorem markLPList_find (l c : Nat) (u : Option Nat) (now : Nat) :
    ∀ lst : List LessonProgress,
      ((markLPList l c u now lst).find? (lpMatches l c u)).map (fun r => r.isCompleted) =
        some true := by
  intro lst
  induction lst with
  | nil =>
      have h := lpMatches_fresh_self l c u now
      simp only [markLPList]
      rw [List.find?_cons_of_pos _ h]
      rfl
  | cons r rs ih =>
      by_cases h : lpMatches l c u r = true
      · have hm : lpMatches l c u (completeLP r now) = true := by
          rw [lpMatches_completeLP]; exact h
        simp only [markLPList, if_pos h]
        rw [List.find?_cons_of_pos _ hm]
        rfl
      · simp only [markLPList, if_neg h]
        rw [List.find?_cons_of_neg _ (by simp [h])]
        exact ih

theorem markLessonCompleted_lessonProgress (l c : Nat) (u : Option Nat) (now : Nat)
    (s : Store) :
    (markLessonCompleted l c u now s).lessonProgress = markLPList l c u now s.lessonProgress := by
  unfold markLessonCompleted
  dsimp only
  split <;> rfl

theorem isLessonCompleted_eq_map (l c : Nat) (u : Option Nat) (s : Store) :
    isLessonCompleted l c u s =
      ((getLessonProgress l c u s).map (fun r => r.isCompleted)).getD false := by
  unfold isLessonCompleted
  cases getLessonProgress l c u s <;> rfl

theorem isLessonCompleted_mark (l c : Nat) (u : Option Nat) (now : Nat) (s : Store) :
    isLessonCompleted l c u (markLessonCompleted l c u now s) = true := by
  rw [isLessonCompleted_eq_map]
  unfold getLessonProgress
  rw [markLessonCompleted_lessonProgress, markLPList_find]
  rfl

theorem lpMatches_applyLPPatch (l c : Nat) (u : Option Nat) (r : LessonProgress) (p : LPPatch)
    (now : Nat) (h2 : p.lessonId = none) (h3 : p.courseId = none) (h4 : p.userId = none) :
    lpMatches l c u (applyLPPatch r p now) = lpMatches l c u r := by
  simp [lpMatches, applyLPPatch, h2, h3, h4]

theorem updLPList_keeps_completed (l c l' c' : Nat) (u u' : Option Nat) (p : LPPatch)
    (now : Nat) (h1 : p.isCompleted ≠ some false) (h2 : p.lessonId = none)
    (h3 : p.courseId = none) (h4 : p.userId = none) :
    ∀ lst : List LessonProgress,
      ((lst.find? (lpMatches l c u)).map (fun r => r.isCompleted)).getD false = true →
      (((updLPList l' c' u' p now lst).find? (lpMatches l c u)).map
        (fun r => r.isCompleted)).getD false = true := by
  intro lst
  induction lst with
  | nil => intro h; simp [List.find?] at h
  | cons r rs ih =>
      intro h
      by_cases hu : lpMatches l' c' u' r = true
      · by_cases hq : lpMatches l c u r = true
        · rw [List.find?_cons_of_pos _ hq] at h
          have hr : r.isCompleted = true := by simpa using h
          have hm : lpMatches l c u (applyLPPatch r p now) = true := by
            rw [lpMatches_applyLPPatch l c u r p now h2 h3 h4]; exact hq
          simp only [updLPList, if_pos hu]
          rw [List.find?_cons_of_pos _ hm]
          cases hpc : p.isCompleted with
          | none => simp [applyLPPatch, hpc, hr]
          | some b =>
              cases b with
              | false => exact absurd hpc h1
              | true => simp [applyLPPatch, hpc]
        · rw [List.find?_cons_of_neg _ (by simp [hq])] at h
          have hm : lpMatches l c u (applyLPPatch r p now) = false := by
            rw [lpMatches_applyLPPatch l c u r p now h2 h3 h4]; simpa using hq
          simp only [updLPList, if_pos hu]
          rw [List.find?_cons_of_neg _ (by simp [hm])]
          exact h
      · simp only [updLPList, if_neg hu]
        by_cases hq : lpMatches l c u r = true
        · rw [List.find?_cons_of_pos _ hq] at h ⊢
          exact h
        · rw [List.find?_cons_of_neg _ (by simp [hq])] at h
          rw [List.find?_cons_of_neg _ (by simp [hq])]
          exact ih h

theorem isLessonCompleted_updateLessonProgress (l c l' c' : Nat) (u u' : Option Nat)
    (p : LPPatch) (now : Nat) (s : Store) (h1 : p.isCompleted ≠ some false)
    (h2 : p.lessonId = none) (h3 : p.courseId = none) (h4 : p.userId = none)
    (h : isLessonCompleted l c u s = true) :
    isLessonCompleted l c u (updateLessonProgress l' c' p u' now s) = true := by
  rw [isLessonCompleted_eq_map] at h ⊢
  unfold getLessonProgress at h ⊢
  exact updLPList_keeps_completed l c l' c' u u' p now h1 h2 h3 h4 s.lessonProgress h

theorem find?_updCPList (c : Nat) (u : Option Nat) (p : CPPatch) (now : Nat) :
    ∀ (lst : List CourseProgress) (r : CourseProgress),
      lst.find? (cpMatches c u) = some r →
      cpMatches c u (applyCPPatch r p now) = true →
      (updCPList c u p now lst).find? (cpMatches c u) = some (applyCPPatch r p now) := by
  intro lst
  induction lst with
  | nil => intro r h _; simp [List.find?] at h
  | cons a rs ih =>
      intro r h hm
      by_cases ha : cpMatches c u a = true
      · rw [List.find?_cons_of_pos _ ha] at h
        injection h with h
        subst h
        simp only [updCPList, if_pos ha]
        rw [List.find?_cons_of_pos _ hm]
      · rw [List.find?_cons_of_neg _ (by simp [ha])] at h
        simp only [updCPList, if_neg ha]
        rw [List.find?_cons_of_neg _ (by simp [ha])]
        exact ih r h hm

theorem applyCPPatch_toCPPatch (r m : CourseProgress) (now : Nat) :
    applyCPPatch r (toCPPatch m) now = { m with lastAccessed := now } := rfl

theorem calculateOverallProgress_range (c : Nat) (u : Option Nat) (s : Store) :
    0 ≤ calculateOverallProgress c u s ∧ calculateOverallProgress c u s ≤ 100 := by
  unfold calculateOverallProgress
  cases getCourseProgress c u s with
  | none => exact ⟨le_refl 0, by norm_num⟩
  | some cp =>
      dsimp only
      refine ⟨by exact_mod_cast Nat.zero_le _, ?_⟩
      exact_mod_cast Nat.min_le_right _ 100

theorem enrollInFreeCourse_fst (c : Nat) (u : Option Nat) (t : Nat) (s : Store) :
    (enrollInFreeCourse c u t s).1 = true := by
  unfold enrollInFreeCourse
  split <;> rfl

theorem syncEnroll_not_capable (c : Nat) (ro : RemoteOutcome) (t : Nat) (st : SyncState)
    (hCap : remoteCapable st = false) :
    syncEnroll c ro t st =
      (true, { st with
        store := (enrollInFreeCourse c st.userId t st.store).2
        syncQueue := st.syncQueue ++ [SyncOp.enrollOp c] }) := by
  unfold syncEnroll
  dsimp only
  rw [enrollInFreeCourse_fst, hCap]
  rfl

theorem processSyncQueue_attempts (f : SyncOp → Bool) (st : SyncState)
    (hOn : st.isOnline = true) (hApi : st.hasApiClient = true) :
    (processSyncQueue f st).1 = st.syncQueue := by
  simp [processSyncQueue, hOn, hApi, drainLoop_eq]

theorem processSyncQueue_queue (f : SyncOp → Bool) (st : SyncState)
    (hOn : st.isOnline = true) (hApi : st.hasApiClient = true) :
    (processSyncQueue f st).2.syncQueue = st.syncQueue.filter (fun o => !f o) := by
  simp [processSyncQueue, hOn, hApi, drainLoop_eq]

/-- C3: a drain (`processSyncQueue`) run while online with an API client
snapshots the queue, clears it, attempts every captured entry in order (a
failing entry never aborts the remaining ones), and re-appends each entry
whose replay throws to the live queue; hence the queue count of an entry
whose remote call throws is unchanged by the drain. -/
theorem C3_retry_resilience (st : SyncState) (f : SyncOp → Bool) (op : SyncOp)
    (hOn : st.isOnline = true) (hApi : st.hasApiClient = true) :
    (processSyncQueue f st).1 = st.syncQueue ∧
    (processSyncQueue f st).2.syncQueue = st.syncQueue.filter (fun o => !f o) ∧
    (f op = false →
      (processSyncQueue f st).2.syncQueue.count op = st.syncQueue.count op) := by
  refine ⟨processSyncQueue_attempts f st hOn hApi, processSyncQueue_queue f st hOn hApi, ?_⟩
  intro hf
  rw [processSyncQueue_queue f st hOn hApi]
  exact count_filter_not f op hf st.syncQueue

theorem C3_retry_resilience_witness :
    (processSyncQueue (fun _ => false)
        ⟨true, some 1, true, [SyncOp.enrollOp 7], emptyStore⟩).2.syncQueue.count
        (SyncOp.enrollOp 7) =
      ([SyncOp.enrollOp 7] : List SyncOp).count (SyncOp.enrollOp 7) :=
  (C3_retry_resilience ⟨true, some 1, true, [SyncOp.enrollOp 7], emptyStore⟩
    (fun _ => false) (SyncOp.enrollOp 7) rfl rfl).2.2 rfl

/-- C2: when the coordinator is not remote capable (offline, or no API
client, or no truthy user id), `enrollInFreeCourse` returns true after the
local enroll and appends exactly one new retry entry to the sync queue; a
subsequent drain run while online with an API client on the resulting
queue, in which that entry's remote call succeeds, attempts the entry
exactly once and leaves no copy of it in the queue. -/
theorem C2_offline_enroll_once (st st2 : SyncState) (c : Nat) (ro : RemoteOutcome) (now : Nat)
    (f : SyncOp → Bool)
    (hCap : remoteCapable st = false)
    (hNew : SyncOp.enrollOp c ∉ st.syncQueue)
    (hOk : f (SyncOp.enrollOp c) = true)
    (hOn2 : st2.isOnline = true) (hApi2 : st2.hasApiClient = true)
    (hq2 : st2.syncQueue = (syncEnroll c ro now st).2.syncQueue) :
    (syncEnroll c ro now st).1 = true ∧
    (syncEnroll c ro now st).2.syncQueue = st.syncQueue ++ [SyncOp.enrollOp c] ∧
    (processSyncQueue f st2).1.count (SyncOp.enrollOp c) = 1 ∧
    (processSyncQueue f st2).2.syncQueue.count (SyncOp.enrollOp c) = 0 := by
  have hse := syncEnroll_not_capable c ro now st hCap
  have h1 : (syncEnroll c ro now st).1 = true := by rw [hse]
  have h2 : (syncEnroll c ro now st).2.syncQueue = st.syncQueue ++ [SyncOp.enrollOp c] := by
    rw [hse]
  have hq2' : st2.syncQueue = st.syncQueue ++ [SyncOp.enrollOp c] := by rw [hq2, h2]
  have hcount0 : st.syncQueue.count (SyncOp.enrollOp c) = 0 := List.count_eq_zero.mpr hNew
  refine ⟨h1, h2, ?_, ?_⟩
  · rw [processSyncQueue_attempts f st2 hOn2 hApi2, hq2']
    simp [List.count_append, hcount0]
  · rw [processSyncQueue_queue f st2 hOn2 hApi2, hq2']
    have hmem : SyncOp.enrollOp c ∉
        (st.syncQueue ++ [SyncOp.enrollOp c]).filter (fun o => !f o) := by
      intro hm
      have hm2 := (List.mem_filter.mp hm).2
      rw [hOk] at hm2
      simp at hm2
    exact List.count_eq_zero.mpr hmem

theorem C2_offline_enroll_once_witness :
    (syncEnroll 42 RemoteOutcome.ok 0 ⟨true, some 1, false, [], emptyStore⟩).1 = true ∧
    (syncEnroll 42 RemoteOutcome.ok 0
        ⟨true, some 1, false, [], emptyStore⟩).2.syncQueue = [SyncOp.enrollOp 42] ∧
    (processSyncQueue (fun _ => true)
        ⟨true, some 1, true, [SyncOp.enrollOp 42], emptyStore⟩).1.count
        (SyncOp.enrollOp 42) = 1 ∧
    (processSyncQueue (fun _ => true)
        ⟨true, some 1, true, [SyncOp.enrollOp 42], emptyStore⟩).2.syncQueue.count
        (SyncOp.enrollOp 42) = 0 := by
  have h := C2_offline_enroll_once ⟨true, some 1, false, [], emptyStore⟩
    ⟨true, some 1, true, [SyncOp.enrollOp 42], emptyStore⟩ 42
    RemoteOutcome.ok 0 (fun _ => true) rfl (by decide) rfl rfl rfl (by decide)
  exact ⟨h.1, by rw [h.2.1]; rfl, h.2.2.1, h.2.2.2⟩

def c7State : SyncState := ⟨true, some 5, true, [SyncOp.enrollOp 42], emptyStore⟩

/-- C7 counterexample: with one queued entry whose replay succeeds, the
drain inside `syncToServer` processes exactly one entry, yet the returned
`synced.enrollments` is 0 — the code reads `this.syncQueue.length` AFTER
the drain, i.e. the number of entries remaining, not the number
processed.  This refutes "a SyncResult whose synced count reports how many
queue entries were processed". -/
theorem C7_synced_count_counterexample :
    (processSyncQueue (fun _ => true) c7State).1.length = 1 ∧
    (syncToServer (fun _ => true) c7State).1.success = true ∧
    (syncToServer (fun _ => true) c7State).1.synced.enrollments = 0 := by
  refine ⟨rfl, rfl, rfl⟩

/-- C7 amended: `syncToServer` drains the retry queue (every queued entry
is attempted) and reports as `synced.enrollments` the number of entries
left in the queue after the drain — the entries whose replay threw and
were re-queued — not the number of entries processed; both `syncToServer`
and `syncFromServer` fail closed, returning `success = false` with the
descriptive error "No server connection or authentication" and an
unchanged state when offline or lacking an API client or a truthy user id
(and they never throw: every remote outcome, including a thrown fetch,
maps to a returned SyncResult). -/
theorem C7_sync_fail_closed (st : SyncState) (f : SyncOp → Bool)
    (eResp pResp : FetchOutcome (List Nat)) :
    (remoteCapable st = false →
      syncToServer f st = (noConnectionResult, st) ∧
      syncFromServer eResp pResp st = (noConnectionResult, st)) ∧
    (remoteCapable st = true →
      (syncToServer f st).1.success = true ∧
      (processSyncQueue f st).1 = st.syncQueue ∧
      (syncToServer f st).1.synced.enrollments =
        (st.syncQueue.filter (fun o => !f o)).length) := by
  constructor
  · intro h
    constructor
    · unfold syncToServer
      rw [h]
      simp
    · unfold syncFromServer
      rw [h]
      simp
  · intro h
    have hOn : st.isOnline = true := by
      have := h
      unfold remoteCapable at this
      exact (Bool.and_eq_true_iff.mp (Bool.and_eq_true_iff.mp this).1).1
    have hApi : st.hasApiClient = true := by
      have := h
      unfold remoteCapable at this
      exact (Bool.and_eq_true_iff.mp (Bool.and_eq_true_iff.mp this).1).2
    have hq := processSyncQueue_queue f st hOn hApi
    refine ⟨?_, processSyncQueue_attempts f st hOn hApi, ?_⟩
    · unfold syncToServer
      rw [h]
      simp
    · unfold syncToServer
      rw [h]
      simp only [Bool.not_true, Bool.false_eq_true, if_false]
      rw [hq]

theorem C7_sync_fail_closed_witness :
    syncToServer (fun _ => true) ⟨true, some 5, false, [], emptyStore⟩ =
      (noConnectionResult, ⟨true, some 5, false, [], emptyStore⟩) ∧
    (syncToServer (fun _ => true) c7State).1.synced.enrollments =
      (c7State.syncQueue.filter (fun o => !(fun _ => true) o)).length := by
  constructor
  · exact ((C7_sync_fail_closed ⟨true, some 5, false, [], emptyStore⟩ (fun _ => true)
      FetchOutcome.fail FetchOutcome.fail).1 rfl).1
  · exact ((C7_sync_fail_closed c7State (fun _ => true)
      FetchOutcome.fail FetchOutcome.fail).2 rfl).2.2

theorem initCourseProgress_enrollments (c : Nat) (u : Option Nat) (t : Nat) (s : Store) :
    (initCourseProgress c u t s).enrollments = s.enrollments := by
  unfold initCourseProgress
  split <;> rfl

theorem enrollInFreeCourse_enrollments (c : Nat) (u : Option Nat) (t : Nat) (s : Store) :
    (enrollInFreeCourse c u t s).2.enrollments =
      if isEnrolledInCourse c u s then s.enrollments
      else s.enrollments ++ [⟨c, u, EnrollMethod.free, t⟩] := by
  unfold enrollInFreeCourse
  by_cases h : isEnrolledInCourse c u s = true
  · rw [if_pos h, if_pos h]
  · rw [if_neg h, if_neg h]
    dsimp only
    rw [initCourseProgress_enrollments]

theorem enrollInFreeCourse_already (c : Nat) (u : Option Nat) (t : Nat) (s : Store)
    (h : isEnrolledInCourse c u s = true) : enrollInFreeCourse c u t s = (true, s) := by
  unfold enrollInFreeCourse
  rw [if_pos h]

theorem enrollMatches_of_key (c : Nat) (u : Option Nat) (e : EnrollmentData)
    (hc : e.courseId = c) (hu : e.userId = u) : enrollMatches c u e = true := by
  simp [enrollMatches, hc, hu, userFalsy_or_self]

theorem not_enrolled_no_key (c : Nat) (u : Option Nat) (s : Store)
    (h : isEnrolledInCourse c u s = false) :
    ∀ e ∈ s.enrollments, ¬(e.courseId = c ∧ e.userId = u) := by
  intro e he hk
  have hall := List.any_eq_false.mp h
  exact hall e he (enrollMatches_of_key c u e hk.1 hk.2)

/-- No two enrollment records share the same (courseId, userId) key. -/
def EnrollKeysNodup (l : List EnrollmentData) : Prop :=
  l.Pairwise (fun a b => ¬(a.courseId = b.courseId ∧ a.userId = b.userId))

/-- The number of enrollment records carrying exactly this (courseId,
userId) pair. -/
def enrollKeyCount (c : Nat) (u : Option Nat) (s : Store) : Nat :=
  (s.enrollments.filter (fun e => e.courseId == c && e.userId == u)).length

theorem enroll_preserves_keysNodup (c : Nat) (u : Option Nat) (t : Nat) (s : Store)
    (hnd : EnrollKeysNodup s.enrollments) :
    EnrollKeysNodup (enrollInFreeCourse c u t s).2.enrollments := by
  rw [EnrollKeysNodup, enrollInFreeCourse_enrollments]
  by_cases h : isEnrolledInCourse c u s = true
  · rw [if_pos h]
    exact hnd
  · replace h : isEnrolledInCourse c u s = false := by simpa using h
    rw [if_neg (by simp [h])]
    rw [List.pairwise_append]
    refine ⟨hnd, List.pairwise_singleton _ _, ?_⟩
    intro a ha b hb hk
    simp only [List.mem_singleton] at hb
    subst hb
    exact not_enrolled_no_key c u s h a ha hk

/-- C5: starting from a store with no enrollment for the course, a local
enroll followed by a second identical enroll returns true both times and
leaves exactly one enrollment record carrying that (courseId, userId)
pair; moreover any single `enrollInFreeCourse` preserves the invariant
that no two enrollment records share a (courseId, userId) pair, so at most
one record per pair ever exists. -/
theorem C5_idempotent_enroll (s : Store) (c : Nat) (u : Option Nat) (t1 t2 : Nat)
    (hClean : ∀ e ∈ s.enrollments, e.courseId ≠ c) :
    (enrollInFreeCourse c u t1 s).1 = true ∧
    (enrollInFreeCourse c u t2 (enrollInFreeCourse c u t1 s).2).1 = true ∧
    enrollKeyCount c u (enrollInFreeCourse c u t2 (enrollInFreeCourse c u t1 s).2).2 = 1 ∧
    (∀ (s' : Store) (c' : Nat) (u' : Option Nat) (t : Nat),
      EnrollKeysNodup s'.enrollments →
      EnrollKeysNodup (enrollInFreeCourse c' u' t s').2.enrollments) := by
  have hnotin : isEnrolledInCourse c u s = false := by
    apply List.any_eq_false.mpr
    intro e he
    simp [enrollMatches, hClean e he]
  have he1 : (enrollInFreeCourse c u t1 s).2.enrollments =
      s.enrollments ++ [⟨c, u, EnrollMethod.free, t1⟩] := by
    rw [enrollInFreeCourse_enrollments, if_neg (by simp [hnotin])]
  have hin2 : isEnrolledInCourse c u (enrollInFreeCourse c u t1 s).2 = true := by
    apply List.any_eq_true.mpr
    refine ⟨⟨c, u, EnrollMethod.free, t1⟩, ?_, ?_⟩
    · rw [he1]
      exact List.mem_append_right _ (List.mem_singleton_self _)
    · exact enrollMatches_of_key c u _ rfl rfl
  have he2 : (enrollInFreeCourse c u t2 (enrollInFreeCourse c u t1 s).2).2 =
      (enrollInFreeCourse c u t1 s).2 := by
    rw [enrollInFreeCourse_already c u t2 _ hin2]
  refine ⟨enrollInFreeCourse_fst c u t1 s, enrollInFreeCourse_fst c u t2 _, ?_, ?_⟩
  · rw [he2]
    unfold enrollKeyCount
    rw [he1, List.filter_append]
    have hdrop : s.enrollments.filter (fun e => e.courseId == c && e.userId == u) = [] := by
      apply List.filter_eq_nil_iff.mpr
      intro e he
      simp [hClean e he]
    rw [hdrop]
    simp
  · intro s' c' u' t hnd
    exact enroll_preserves_keysNodup c' u' t s' hnd

theorem C5_idempotent_enroll_witness :
    (enrollInFreeCourse 7 (some 5) 1 emptyStore).1 = true ∧
    (enrollInFreeCourse 7 (some 5) 2 (enrollInFreeCourse 7 (some 5) 1 emptyStore).2).1 = true ∧
    enrollKeyCount 7 (some 5)
      (enrollInFreeCourse 7 (some 5) 2 (enrollInFreeCourse 7 (some 5) 1 emptyStore).2).2 = 1 ∧
    (∀ (s' : Store) (c' : Nat) (u' : Option Nat) (t : Nat),
      EnrollKeysNodup s'.enrollments →
      EnrollKeysNodup (enrollInFreeCourse c' u' t s').2.enrollments) :=
  C5_idempotent_enroll emptyStore 7 (some 5) 1 2 (by intro e he; cases he)

def c9Rec : LessonProgress :=
  { lessonId := 9, courseId := 1, userId := some 5, isCompleted := false,
    progressPercentage := 0, timeSpent := 0, lastPosition := none,
    accessedAt := 0, completedAt := none }

def c9Store : Store := { enrollments := [], courseProgress := [], lessonProgress := [c9Rec] }

def c9Patch : LPPatch := { lessonId := some 3 }

/-- C9 counterexample: after lesson 3 of course 1 is marked completed, a
single `updateLessonProgress` call whose patch never touches the completed
flag (it only carries a `lessonId` key, which the update spread copies onto
the matched record) retargets the earlier, uncompleted record for lesson 9
to lesson 3; that record precedes the completed one, so the first-match
lookup `isLessonCompleted(3, 1, 5)` turns false — refuting the claim for
arbitrary patches that do not explicitly clear the flag. -/
theorem C9_monotonicity_counterexample :
    c9Patch.isCompleted = none ∧
    isLessonCompleted 3 1 (some 5) (markLessonCompleted 3 1 (some 5) 1 c9Store) = true ∧
    isLessonCompleted 3 1 (some 5)
      (updateLessonProgress 9 1 c9Patch (some 5) 2
        (markLessonCompleted 3 1 (some 5) 1 c9Store)) = false := by
  refine ⟨rfl, by decide, by decide⟩

structure UpdCall where
  lessonId : Nat
  courseId : Nat
  patch : LPPatch
  userId : Option Nat
  time : Nat

def applyUpdCall (s : Store) (k : UpdCall) : Store :=
  updateLessonProgress k.lessonId k.courseId k.patch k.userId k.time s

/-- A patch that does not explicitly set the completed flag to false and
does not rewrite the identity fields of the matched record. -/
def benignPatch (p : LPPatch) : Prop :=
  p.isCompleted ≠ some false ∧ p.lessonId = none ∧ p.courseId = none ∧ p.userId = none

/-- C9 amended: once `markLessonCompleted(l, c, u)` has run,
`isLessonCompleted(l, c, u)` stays true after any sequence of
`updateLessonProgress` calls whose patches neither set the completed flag
to false nor rewrite the identity fields (lessonId, courseId, userId) of
the record they touch. -/
theorem C9_completion_monotonic (s : Store) (l c : Nat) (u : Option Nat) (now : Nat)
    (calls : List UpdCall) (h : ∀ k ∈ calls, benignPatch k.patch) :
    isLessonCompleted l c u
      (calls.foldl applyUpdCall (markLessonCompleted l c u now s)) = true := by
  have step : ∀ (ks : List UpdCall) (s0 : Store), (∀ k ∈ ks, benignPatch k.patch) →
      isLessonCompleted l c u s0 = true →
      isLessonCompleted l c u (ks.foldl applyUpdCall s0) = true := by
    intro ks
    induction ks with
    | nil => intro s0 _ h0; exact h0
    | cons k ks ih =>
        intro s0 hks h0
        have hk := hks k (List.mem_cons_self _ _)
        apply ih
        · intro k' hk'
          exact hks k' (List.mem_cons_of_mem _ hk')
        · exact isLessonCompleted_updateLessonProgress l c k.lessonId k.courseId u k.userId
            k.patch k.time s0 hk.1 hk.2.1 hk.2.2.1 hk.2.2.2 h0
  exact step calls _ h (isLessonCompleted_mark l c u now s)

theorem C9_completion_monotonic_witness :
    isLessonCompleted 3 1 none
      (([⟨3, 1, { timeSpent := some 120 }, none, 5⟩] : List UpdCall).foldl applyUpdCall
        (markLessonCompleted 3 1 none 0 emptyStore)) = true :=
  C9_completion_monotonic emptyStore 3 1 none 0 [⟨3, 1, { timeSpent := some 120 }, none, 5⟩]
    (by intro k hk
        simp only [List.mem_singleton] at hk
        subst hk
        refine ⟨by decide, rfl, rfl, rfl⟩)

def c8Patch : LPPatch := { isCompleted := some true }

/-- C8 counterexample: a single `updateLessonProgress` call whose partial
patch is `{ isCompleted: true }` inserts a record with the completed flag
true, progress percentage 0 and no completed timestamp — violating
"completed flag true implies progress = 100 and completed timestamp set"
for records reachable with arbitrary partial patches. -/
theorem C8_invariant_counterexample :
    ((updateLessonProgress 3 1 c8Patch none 7 emptyStore).lessonProgress.map
      (fun r => (r.isCompleted, r.progressPercentage, r.completedAt))) =
      [(true, 0, none)] := by
  decide

/-- A patch that does not touch the completion fields (completed flag,
progress percentage, completed timestamp) — e.g. time-spent or playback
position updates. -/
def completionNeutral (p : LPPatch) : Prop :=
  p.isCompleted = none ∧ p.progressPercentage = none ∧ p.completedAt = none

inductive LPReachable : Store → Prop
  | init : LPReachable emptyStore
  | enroll (c : Nat) (u : Option Nat) (t : Nat) {s : Store} :
      LPReachable s → LPReachable (enrollInFreeCourse c u t s).2
  | unenroll (c : Nat) (u : Option Nat) {s : Store} :
      LPReachable s → LPReachable (unenrollFromCourse c u s).2
  | updCourse (c : Nat) (p : CPPatch) (u : Option Nat) (t : Nat) {s : Store} :
      LPReachable s → LPReachable (updateCourseProgress c p u t s)
  | mark (l c : Nat) (u : Option Nat) (t : Nat) {s : Store} :
      LPReachable s → LPReachable (markLessonCompleted l c u t s)
  | upd (l c : Nat) (p : LPPatch) (u : Option Nat) (t : Nat) {s : Store} :
      LPReachable s → completionNeutral p → LPReachable (updateLessonProgress l c p u t s)

def lessonInvariant (s : Store) : Prop :=
  ∀ r ∈ s.lessonProgress, r.isCompleted = true →
    r.progressPercentage = 100 ∧ r.completedAt.isSome = true

theorem mem_markLPList (l c : Nat) (u : Option Nat) (t : Nat) :
    ∀ (lst : List LessonProgress) (x : LessonProgress), x ∈ markLPList l c u t lst →
      x ∈ lst ∨ (∃ r, r ∈ lst ∧ x = completeLP r t) ∨ x = freshCompletedLP l c u t := by
  intro lst
  induction lst with
  | nil =>
      intro x hx
      simp only [markLPList, List.mem_singleton] at hx
      exact Or.inr (Or.inr hx)
  | cons r rs ih =>
      intro x hx
      by_cases h : lpMatches l c u r = true
      · simp only [markLPList, if_pos h, List.mem_cons] at hx
        rcases hx with hx | hx
        · exact Or.inr (Or.inl ⟨r, List.mem_cons_self _ _, hx⟩)
        · exact Or.inl (List.mem_cons_of_mem _ hx)
      · simp only [markLPList, if_neg h, List.mem_cons] at hx
        rcases hx with hx | hx
        · exact Or.inl (by rw [hx]; exact List.mem_cons_self _ _)
        · rcases ih x hx with h1 | h1 | h1
          · exact Or.inl (List.mem_cons_of_mem _ h1)
          · exact Or.inr (Or.inl ⟨h1.choose, List.mem_cons_of_mem _ h1.choose_spec.1,
              h1.choose_spec.2⟩)
          · exact Or.inr (Or.inr h1)

theorem mem_updLPList (l c : Nat) (u : Option Nat) (p : LPPatch) (t : Nat) :
    ∀ (lst : List LessonProgress) (x : LessonProgress), x ∈ updLPList l c u p t lst →
      x ∈ lst ∨ (∃ r, r ∈ lst ∧ x = applyLPPatch r p t) ∨ x = freshLPRecord l c u p t := by
  intro lst
  induction lst with
  | nil =>
      intro x hx
      simp only [updLPList, List.mem_singleton] at hx
      exact Or.inr (Or.inr hx)
  | cons r rs ih =>
      intro x hx
      by_cases h : lpMatches l c u r = true
      · simp only [updLPList, if_pos h, List.mem_cons] at hx
        rcases hx with hx | hx
        · exact Or.inr (Or.inl ⟨r, List.mem_cons_self _ _, hx⟩)
        · exact Or.inl (List.mem_cons_of_mem _ hx)
      · simp only [updLPList, if_neg h, List.mem_cons] at hx
        rcases hx with hx | hx
        · exact Or.inl (by rw [hx]; exact List.mem_cons_self _ _)
        · rcases ih x hx with h1 | h1 | h1
          · exact Or.inl (List.mem_cons_of_mem _ h1)
          · exact Or.inr (Or.inl ⟨h1.choose, List.mem_cons_of_mem _ h1.choose_spec.1,
              h1.choose_spec.2⟩)
          · exact Or.inr (Or.inr h1)

theorem initCourseProgress_lessonProgress (c : Nat) (u : Option Nat) (t : Nat) (s : Store) :
    (initCourseProgress c u t s).lessonProgress = s.lessonProgress := by
  unfold initCourseProgress
  split <;> rfl

theorem enrollInFreeCourse_lessonProgress (c : Nat) (u : Option Nat) (t : Nat) (s : Store) :
    (enrollInFreeCourse c u t s).2.lessonProgress = s.lessonProgress := by
  unfold enrollInFreeCourse
  by_cases h : isEnrolledInCourse c u s = true
  · rw [if_pos h]
  · rw [if_neg h]
    dsimp only
    rw [initCourseProgress_lessonProgress]

/-- C8 amended: for every LessonProgress record reachable by local-store
operations in which the `updateLessonProgress` patches do not touch the
completion fields (completed flag, progress percentage, completed
timestamp), the completed flag being true implies progress percentage 100
and a set completed timestamp.  (A patch carrying `isCompleted: true`
alone violates the invariant, see the counterexample.) -/
theorem C8_lesson_invariant (s : Store) (h : LPReachable s) : lessonInvariant s := by
  induction h with
  | init => intro r hr; cases hr
  | enroll c u t _ ih =>
      intro r hr
      rw [enrollInFreeCourse_lessonProgress] at hr
      exact ih r hr
  | unenroll c u _ ih =>
      intro r hr
      exact ih r hr
  | updCourse c p u t _ ih =>
      intro r hr
      exact ih r hr
  | mark l c u t _ ih =>
      intro r hr
      rw [markLessonCompleted_lessonProgress] at hr
      rcases mem_markLPList l c u t _ r hr with h1 | ⟨r0, _, h1⟩ | h1
      · exact ih r h1
      · intro _
        rw [h1]
        exact ⟨rfl, rfl⟩
      · intro _
        rw [h1]
        exact ⟨rfl, rfl⟩
  | upd l c p u t _ hneutral ih =>
      intro r hr
      rcases mem_updLPList l c u p t _ r hr with h1 | ⟨r0, hr0, h1⟩ | h1
      · exact ih r h1
      · intro hcomp
        have hc0 : r0.isCompleted = true := by
          rw [h1] at hcomp
          simpa [applyLPPatch, hneutral.1] using hcomp
        have := ih r0 hr0 hc0
        rw [h1]
        simp only [applyLPPatch, hneutral.1, hneutral.2.1, hneutral.2.2, Option.getD_none]
        exact ⟨this.1, by simp [this.2]⟩
      · intro hcomp
        rw [h1] at hcomp
        simp [freshLPRecord, hneutral.1] at hcomp

theorem C8_lesson_invariant_witness :
    lessonInvariant
      (updateLessonProgress 3 1 { timeSpent := some 60 } none 2
        (markLessonCompleted 3 1 none 1 emptyStore)) :=
  C8_lesson_invariant _
    (LPReachable.upd 3 1 { timeSpent := some 60 } none 2
      (LPReachable.mark 3 1 none 1 LPReachable.init) ⟨rfl, rfl, rfl⟩)

/-- C4 counterexample: calling `markLessonCompleted(3, 1)` with no prior
CourseProgress record for (course 1, no user) writes only the
LessonProgress record: afterwards there is still no CourseProgress record
at all (the course-progress step is guarded by `if (courseProgress)`), so
`completedLessons` does not become `[3]` and no overallProgress exists,
although `isLessonCompleted` is true. -/
theorem C4_no_record_counterexample :
    getCourseProgress 1 none (markLessonCompleted 3 1 none 0 emptyStore) = none ∧
    isLessonCompleted 3 1 none (markLessonCompleted 3 1 none 0 emptyStore) = true := by
  refine ⟨by decide, by decide⟩

theorem cpMatches_zeroProgress (c : Nat) (u : Option Nat) (t : Nat) :
    cpMatches c u (zeroProgress c u t) = true := by
  simp [cpMatches, zeroProgress, userFalsy_or_self]

/-- C4 amended: when a CourseProgress record exists — here the zeroed one
created by a prior `enrollInFreeCourse` — `markLessonCompleted` appends
the lesson to `completedLessons` (giving `[lessonId]`) and
`isLessonCompleted` returns true; but `overallProgress` is recomputed from
the record as stored BEFORE the new lesson is persisted, so it is 0 after
this first completion, not greater than 0.  With no prior CourseProgress
record, no CourseProgress record is created at all (see the
counterexample). -/
theorem C4_mark_after_enroll (c l : Nat) (u : Option Nat) (t0 t1 : Nat) :
    ((getCourseProgress c u (markLessonCompleted l c u t1
        (enrollInFreeCourse c u t0 emptyStore).2)).map
      (fun cp => cp.completedLessons)) = some [l] ∧
    ((getCourseProgress c u (markLessonCompleted l c u t1
        (enrollInFreeCourse c u t0 emptyStore).2)).map
      (fun cp => cp.overallProgress)) = some 0 ∧
    isLessonCompleted l c u (markLessonCompleted l c u t1
      (enrollInFreeCourse c u t0 emptyStore).2) = true := by
  have hs0 : (enrollInFreeCourse c u t0 emptyStore).2 =
      ⟨[⟨c, u, EnrollMethod.free, t0⟩], [zeroProgress c u t0], []⟩ := rfl
  have hz := cpMatches_zeroProgress c u t0
  have hget : getCourseProgress c u
      ⟨[⟨c, u, EnrollMethod.free, t0⟩], [zeroProgress c u t0],
        [freshCompletedLP l c u t1]⟩ = some (zeroProgress c u t0) := by
    unfold getCourseProgress
    exact List.find?_cons_of_pos _ hz
  have hcalc : calculateOverallProgress c u
      ⟨[⟨c, u, EnrollMethod.free, t0⟩], [zeroProgress c u t0],
        [freshCompletedLP l c u t1]⟩ = 0 := by
    unfold calculateOverallProgress
    rw [hget]
    simp [zeroProgress, jsRound]
  have hmark : markLessonCompleted l c u t1
      ⟨[⟨c, u, EnrollMethod.free, t0⟩], [zeroProgress c u t0], []⟩ =
      ⟨[⟨c, u, EnrollMethod.free, t0⟩],
       [applyCPPatch (zeroProgress c u t0)
          { completedLessons := some [l], overallProgress := some 0 } t1],
       [freshCompletedLP l c u t1]⟩ := by
    unfold markLessonCompleted
    dsimp only [markLPList]
    split
    · rename_i hg
      rw [hget] at hg
      exact Option.noConfusion hg
    · rename_i cp hg
      have hcp : zeroProgress c u t0 = cp := Option.some.inj (hget.symm.trans hg)
      subst hcp
      rw [hcalc]
      simp only [updateCourseProgress, updCPList]
      rw [if_pos hz]
      rfl
  rw [hs0, hmark]
  have ha : cpMatches c u (applyCPPatch (zeroProgress c u t0)
      { completedLessons := some [l], overallProgress := some 0 } t1) = true := by
    simp [cpMatches, applyCPPatch, zeroProgress, userFalsy_or_self]
  have hga : getCourseProgress c u
      ⟨[⟨c, u, EnrollMethod.free, t0⟩],
       [applyCPPatch (zeroProgress c u t0)
          { completedLessons := some [l], overallProgress := some 0 } t1],
       [freshCompletedLP l c u t1]⟩ =
      some (applyCPPatch (zeroProgress c u t0)
        { completedLessons := some [l], overallProgress := some 0 } t1) := by
    unfold getCourseProgress
    exact List.find?_cons_of_pos _ ha
  refine ⟨by rw [hga]; rfl, by rw [hga]; rfl, ?_⟩
  rw [isLessonCompleted_eq_map]
  unfold getLessonProgress
  rw [List.find?_cons_of_pos _ (lpMatches_fresh_self l c u t1)]
  rfl

theorem enrollMatches_zero (c : Nat) : enrollMatches c (some 0) = enrollMatches c none := by
  funext e
  simp [enrollMatches, userFalsy]

theorem cpMatches_zero (c : Nat) : cpMatches c (some 0) = cpMatches c none := by
  funext p
  simp [cpMatches, userFalsy]

theorem lpMatches_zero (l c : Nat) : lpMatches l c (some 0) = lpMatches l c none := by
  funext p
  simp [lpMatches, userFalsy]

theorem updCPList_zero (c : Nat) (p : CPPatch) (t : Nat) :
    ∀ lst : List CourseProgress, updCPList c (some 0) p t lst = updCPList c none p t lst := by
  intro lst
  induction lst with
  | nil => rfl
  | cons r rs ih =>
      simp only [updCPList, cpMatches_zero, ih]

theorem updLPList_zero (l c : Nat) (p : LPPatch) (t : Nat) :
    ∀ lst : List LessonProgress, (∃ r ∈ lst, lpMatches l c none r = true) →
      updLPList l c (some 0) p t lst = updLPList l c none p t lst := by
  intro lst
  induction lst with
  | nil => intro h; exact absurd h (by simp)
  | cons r rs ih =>
      intro h
      by_cases hr : lpMatches l c none r = true
      · simp only [updLPList, lpMatches_zero, if_pos hr]
      · have hrest : ∃ r' ∈ rs, lpMatches l c none r' = true := by
          rcases h with ⟨r', hr', hm⟩
          rcases List.mem_cons.mp hr' with h1 | h1
          · exact absurd (h1 ▸ hm) hr
          · exact ⟨r', h1, hm⟩
        simp only [updLPList, lpMatches_zero, if_neg hr, ih hrest]

/-- C10: in the store's matching operations a falsy userId argument (absent
or 0) matches records regardless of their stored userId — so userId 0
behaves exactly like an omitted userId — while a nonzero userId matches
only records whose stored userId strictly equals it (a record stored
without a userId is never matched by a nonzero query); the same holds for
the write counterparts, which locate their target record with the same
predicate. -/
theorem C10_userId_matching (s : Store) (c l : Nat) :
    (isEnrolledInCourse c (some 0) s = isEnrolledInCourse c none s) ∧
    (getCourseProgress c (some 0) s = getCourseProgress c none s) ∧
    (getLessonProgress l c (some 0) s = getLessonProgress l c none s) ∧
    (isEnrolledInCourse c none s = true ↔ ∃ e ∈ s.enrollments, e.courseId = c) ∧
    (∀ n : Nat, n ≠ 0 →
      (isEnrolledInCourse c (some n) s = true ↔
        ∃ e ∈ s.enrollments, e.courseId = c ∧ e.userId = some n)) ∧
    (∀ (p : CPPatch) (t : Nat),
      updateCourseProgress c p (some 0) t s = updateCourseProgress c p none t s) ∧
    (∀ (p : LPPatch) (t : Nat), (∃ r ∈ s.lessonProgress, lpMatches l c none r = true) →
      updateLessonProgress l c p (some 0) t s = updateLessonProgress l c p none t s) := by
  refine ⟨?_, ?_, ?_, ?_, ?_, ?_, ?_⟩
  · unfold isEnrolledInCourse
    rw [enrollMatches_zero]
  · unfold getCourseProgress
    rw [cpMatches_zero]
  · unfold getLessonProgress
    rw [lpMatches_zero]
  · unfold isEnrolledInCourse
    simp [List.any_eq_true, enrollMatches, userFalsy]
  · intro n hn
    unfold isEnrolledInCourse
    simp [List.any_eq_true, enrollMatches, userFalsy, hn]
  · intro p t
    unfold updateCourseProgress
    rw [updCPList_zero]
  · intro p t h
    unfold updateLessonProgress
    rw [updLPList_zero l c p t s.lessonProgress h]

theorem C10_userId_matching_witness :
    (isEnrolledInCourse 7 (some 0)
        ⟨[⟨7, none, EnrollMethod.free, 0⟩], [], [c9Rec]⟩ =
      isEnrolledInCourse 7 none ⟨[⟨7, none, EnrollMethod.free, 0⟩], [], [c9Rec]⟩) ∧
    (isEnrolledInCourse 7 (some 5) ⟨[⟨7, none, EnrollMethod.free, 0⟩], [], [c9Rec]⟩ = true ↔
      ∃ e ∈ ([⟨7, none, EnrollMethod.free, 0⟩] : List EnrollmentData),
        e.courseId = 7 ∧ e.userId = some 5) ∧
    (updateLessonProgress 9 1 { timeSpent := some 3 } (some 0) 4
        ⟨[⟨7, none, EnrollMethod.free, 0⟩], [], [c9Rec]⟩ =
      updateLessonProgress 9 1 { timeSpent := some 3 } none 4
        ⟨[⟨7, none, EnrollMethod.free, 0⟩], [], [c9Rec]⟩) := by
  have h := C10_userId_matching ⟨[⟨7, none, EnrollMethod.free, 0⟩], [], [c9Rec]⟩ 7 9
  have h2 := C10_userId_matching ⟨[⟨7, none, EnrollMethod.free, 0⟩], [], [c9Rec]⟩ 1 9
  refine ⟨h.1, h.2.2.2.2.1 5 (by decide), ?_⟩
  exact h2.2.2.2.2.2.2 { timeSpent := some 3 } 4 ⟨c9Rec, by decide, by decide⟩

def c1Local : CourseProgress :=
  { courseId := 1, userId := some 5, completedLessons := [3], completedQuizzes := [],
    completedAssignments := [], overallProgress := 10, lastAccessed := 50,
    startDate := 40, completionDate := none }

def c1State : SyncState := ⟨true, some 5, true, [], ⟨[], [c1Local], []⟩⟩

def c1Remote : RemoteProgress := { completedLessons := some [] }

/-- C1 counterexample: the local record has completedLessons = [3]; the
successful remote response provides the empty list.  The claim says the
merged record should then fall back to the local list [3], but the code's
JS `||` treats a present empty array as truthy, so the merged (and
returned) record has completedLessons = []. -/
theorem C1_empty_list_counterexample :
    (getCourseProgress 1 (some 5) c1State.store).map (fun cp => cp.completedLessons) =
      some [3] ∧
    ((syncGetCourseProgress 1 (FetchOutcome.ok c1Remote) 60 c1State).1.map
      (fun cp => cp.completedLessons)) = some [] := by
  refine ⟨by decide, by decide⟩

/-- The record built by the merge branch of
`TutorEnrollmentSync.getCourseProgress`. -/
def mergedOf (c : Nat) (st : SyncState) (r : RemoteProgress) (now : Nat) : CourseProgress :=
  mergeProgress c st.userId (getCourseProgress c st.userId st.store) r now

theorem syncGetCourseProgress_ok (c : Nat) (r : RemoteProgress) (now : Nat) (st : SyncState)
    (hCap : remoteCapable st = true) :
    syncGetCourseProgress c (FetchOutcome.ok r) now st =
      (some (mergedOf c st r now),
        { st with store :=
            updateCourseProgress c (toCPPatch (mergedOf c st r now)) st.userId now st.store }) := by
  unfold syncGetCourseProgress mergedOf
  rw [hCap]
  rfl

/-- C1 amended: for a successful remote `getCourseProgress` response with
data, the coordinator returns (and persists, when a local record exists) a
merged record in which each completed-items list equals the remote list
whenever the remote PROVIDES the field — even as an empty list — and
falls back to the local list only when the remote omits the field;
`overallProgress` takes the remote value only when it is nonzero (a remote
zero falls through to the local value, then to 0), and the persisted copy
is the merged record with `lastAccessed` refreshed. -/
theorem C1_merge_precedence (st : SyncState) (c now : Nat) (r : RemoteProgress)
    (hCap : remoteCapable st = true) :
    ∃ m : CourseProgress,
      (syncGetCourseProgress c (FetchOutcome.ok r) now st).1 = some m ∧
      (∀ x, r.completedLessons = some x → m.completedLessons = x) ∧
      (r.completedLessons = none → m.completedLessons =
        ((getCourseProgress c st.userId st.store).map
          (fun lp => lp.completedLessons)).getD []) ∧
      (∀ x, r.completedQuizzes = some x → m.completedQuizzes = x) ∧
      (r.completedQuizzes = none → m.completedQuizzes =
        ((getCourseProgress c st.userId st.store).map
          (fun lp => lp.completedQuizzes)).getD []) ∧
      (∀ x, r.completedAssignments = some x → m.completedAssignments = x) ∧
      (r.completedAssignments = none → m.completedAssignments =
        ((getCourseProgress c st.userId st.store).map
          (fun lp => lp.completedAssignments)).getD []) ∧
      (∀ v, r.overallProgress = some v → v ≠ 0 → m.overallProgress = v) ∧
      ((r.overallProgress = none ∨ r.overallProgress = some 0) → m.overallProgress =
        ((getCourseProgress c st.userId st.store).map
          (fun lp => lp.overallProgress)).getD 0) ∧
      (∀ lp, getCourseProgress c st.userId st.store = some lp →
        getCourseProgress c st.userId
          (syncGetCourseProgress c (FetchOutcome.ok r) now st).2.store =
          some { m with lastAccessed := now }) := by
  refine ⟨mergedOf c st r now, ?_, ?_, ?_, ?_, ?_, ?_, ?_, ?_, ?_, ?_⟩
  · rw [syncGetCourseProgress_ok c r now st hCap]
  · intro x hx
    simp [mergedOf, mergeProgress, hx]
  · intro hx
    cases hl : getCourseProgress c st.userId st.store <;>
      simp [mergedOf, mergeProgress, hx, hl]
  · intro x hx
    simp [mergedOf, mergeProgress, hx]
  · intro hx
    cases hl : getCourseProgress c st.userId st.store <;>
      simp [mergedOf, mergeProgress, hx, hl]
  · intro x hx
    simp [mergedOf, mergeProgress, hx]
  · intro hx
    cases hl : getCourseProgress c st.userId st.store <;>
      simp [mergedOf, mergeProgress, hx, hl]
  · intro v hv hne
    simp [mergedOf, mergeProgress, jsNumOr, hv, hne]
  · intro hv
    cases hl : getCourseProgress c st.userId st.store with
    | none =>
        rcases hv with h | h <;> simp [mergedOf, mergeProgress, jsNumOr, h, hl]
    | some lp =>
        rcases hv with h | h <;> by_cases hz : lp.overallProgress = 0 <;>
          simp [mergedOf, mergeProgress, jsNumOr, h, hl, hz]
  · intro lp hlp
    rw [syncGetCourseProgress_ok c r now st hCap]
    have hm : cpMatches c st.userId
        (applyCPPatch lp (toCPPatch (mergedOf c st r now)) now) = true := by
      rw [applyCPPatch_toCPPatch]
      simp [cpMatches, mergedOf, mergeProgress, userFalsy_or_self]
    unfold getCourseProgress at hlp
    unfold getCourseProgress updateCourseProgress
    dsimp only
    rw [find?_updCPList c st.userId _ now st.store.courseProgress lp hlp hm,
      applyCPPatch_toCPPatch]

theorem C1_merge_precedence_witness :
    ∃ m : CourseProgress,
      (syncGetCourseProgress 1 (FetchOutcome.ok c1Remote) 60 c1State).1 = some m ∧
      (∀ x, c1Remote.completedLessons = some x → m.completedLessons = x) ∧
      (c1Remote.completedLessons = none → m.completedLessons =
        ((getCourseProgress 1 c1State.userId c1State.store).map
          (fun lp => lp.completedLessons)).getD []) ∧
      (∀ x, c1Remote.completedQuizzes = some x → m.completedQuizzes = x) ∧
      (c1Remote.completedQuizzes = none → m.completedQuizzes =
        ((getCourseProgress 1 c1State.userId c1State.store).map
          (fun lp => lp.completedQuizzes)).getD []) ∧
      (∀ x, c1Remote.completedAssignments = some x → m.completedAssignments = x) ∧
      (c1Remote.completedAssignments = none → m.completedAssignments =
        ((getCourseProgress 1 c1State.userId c1State.store).map
          (fun lp => lp.completedAssignments)).getD []) ∧
      (∀ v, c1Remote.overallProgress = some v → v ≠ 0 → m.overallProgress = v) ∧
      ((c1Remote.overallProgress = none ∨ c1Remote.overallProgress = some 0) →
        m.overallProgress =
        ((getCourseProgress 1 c1State.userId c1State.store).map
          (fun lp => lp.overallProgress)).getD 0) ∧
      (∀ lp, getCourseProgress 1 c1State.userId c1State.store = some lp →
        getCourseProgress 1 c1State.userId
          (syncGetCourseProgress 1 (FetchOutcome.ok c1Remote) 60 c1State).2.store =
          some { m with lastAccessed := 60 }) :=
  C1_merge_precedence c1State 1 60 c1Remote rfl

theorem mergeProgress_overall_range (c : Nat) (u : Option Nat) (localP : Option CourseProgress)
    (r : RemoteProgress) (now : Nat)
    (hr : ∀ v, r.overallProgress = some v → 0 ≤ v ∧ v ≤ 100)
    (hl : ∀ lp, localP = some lp → 0 ≤ lp.overallProgress ∧ lp.overallProgress ≤ 100) :
    0 ≤ (mergeProgress c u localP r now).overallProgress ∧
      (mergeProgress c u localP r now).overallProgress ≤ 100 := by
  have hfb : 0 ≤ jsNumOr (localP.map (fun lp => lp.overallProgress)) 0 ∧
      jsNumOr (localP.map (fun lp => lp.overallProgress)) 0 ≤ 100 := by
    cases hlo : localP with
    | none => simp [jsNumOr]
    | some lp =>
        by_cases hz : lp.overallProgress = 0
        · simp [jsNumOr, hz]
        · simpa [jsNumOr, hz] using hl lp hlo
  cases hro : r.overallProgress with
  | none => simpa [mergeProgress, jsNumOr, hro] using hfb
  | some v =>
      by_cases hz : v = 0
      · simpa [mergeProgress, jsNumOr, hro, hz] using hfb
      · simpa [mergeProgress, jsNumOr, hro, hz] using hr v hro

theorem progressInv_updCPList (c : Nat) (u : Option Nat) (p : CPPatch) (t : Nat)
    (hp : ∀ v, p.overallProgress = some v → 0 ≤ v ∧ v ≤ 100) :
    ∀ lst : List CourseProgress,
      (∀ x ∈ lst, 0 ≤ x.overallProgress ∧ x.overallProgress ≤ 100) →
      ∀ x ∈ updCPList c u p t lst, 0 ≤ x.overallProgress ∧ x.overallProgress ≤ 100 := by
  intro lst
  induction lst with
  | nil => intro _ x hx; cases hx
  | cons r rs ih =>
      intro hlst x hx
      by_cases h : cpMatches c u r = true
      · simp only [updCPList, if_pos h, List.mem_cons] at hx
        rcases hx with hx | hx
        · have hov : (applyCPPatch r p t).overallProgress =
              p.overallProgress.getD r.overallProgress := rfl
          rw [hx, hov]
          cases hpo : p.overallProgress with
          | none => simpa using hlst r (List.mem_cons_self _ _)
          | some v => simpa using hp v hpo
        · exact hlst x (List.mem_cons_of_mem _ hx)
      · simp only [updCPList, if_neg h, List.mem_cons] at hx
        rcases hx with hx | hx
        · exact hx ▸ hlst r (List.mem_cons_self _ _)
        · exact ih (fun y hy => hlst y (List.mem_cons_of_mem _ hy)) x hx

theorem enrollInFreeCourse_courseProgress_mem (c : Nat) (u : Option Nat) (t : Nat) (s : Store) :
    ∀ x ∈ (enrollInFreeCourse c u t s).2.courseProgress,
      x ∈ s.courseProgress ∨ x = zeroProgress c u t := by
  intro x hx
  unfold enrollInFreeCourse at hx
  by_cases h : isEnrolledInCourse c u s = true
  · rw [if_pos h] at hx
    exact Or.inl hx
  · rw [if_neg h] at hx
    dsimp only at hx
    unfold initCourseProgress at hx
    rcases hfind : List.find? (cpMatches c u) s.courseProgress with _ | cp
    · rw [hfind] at hx
      dsimp only at hx
      rcases List.mem_append.mp hx with h1 | h1
      · exact Or.inl h1
      · exact Or.inr (List.mem_singleton.mp h1)
    · rw [hfind] at hx
      exact Or.inl hx

def progressInvariant (s : Store) : Prop :=
  ∀ p ∈ s.courseProgress, 0 ≤ p.overallProgress ∧ p.overallProgress ≤ 100

theorem markLessonCompleted_progressInv (l c : Nat) (u : Option Nat) (t : Nat) (s : Store)
    (ih : progressInvariant s) : progressInvariant (markLessonCompleted l c u t s) := by
  unfold markLessonCompleted
  dsimp only
  split
  · exact fun p hp => ih p hp
  · rename_i cp hg
    intro p hp
    refine progressInv_updCPList c u _ t ?_ s.courseProgress (fun x hx => ih x hx) p hp
    intro v hv
    have hv' : some (calculateOverallProgress c u
        { s with lessonProgress := markLPList l c u t s.lessonProgress }) = some v := hv
    rw [← Option.some.inj hv']
    exact calculateOverallProgress_range c u _

/- Every state the coordinator or the store can produce, starting empty:
local enroll/unenroll, the coordinator's lesson completion and lesson
update (any patch), and the coordinator's `getCourseProgress` merge
against any remote response whose overall-progress value (a
`CourseProgress`-typed percentage) lies in 0..100. -/
inductive StoreReachable : Store → Prop
  | init : StoreReachable emptyStore
  | enroll (c : Nat) (u : Option Nat) (t : Nat) {s : Store} :
      StoreReachable s → StoreReachable (enrollInFreeCourse c u t s).2
  | unenroll (c : Nat) (u : Option Nat) {s : Store} :
      StoreReachable s → StoreReachable (unenrollFromCourse c u s).2
  | mark (l c : Nat) (u : Option Nat) (t : Nat) {s : Store} :
      StoreReachable s → StoreReachable (markLessonCompleted l c u t s)
  | updLesson (l c : Nat) (p : LPPatch) (u : Option Nat) (t : Nat) {s : Store} :
      StoreReachable s → StoreReachable (updateLessonProgress l c p u t s)
  | syncGet (c : Nat) (resp : FetchOutcome RemoteProgress) (t : Nat)
      (hasApi : Bool) (uid : Option Nat) (onl : Bool) (q : List SyncOp) {s : Store} :
      StoreReachable s →
      (∀ r v, resp = FetchOutcome.ok r → r.overallProgress = some v → 0 ≤ v ∧ v ≤ 100) →
      StoreReachable (syncGetCourseProgress c resp t ⟨hasApi, uid, onl, q, s⟩).2.store

theorem syncGetCourseProgress_store_cases (c : Nat) (resp : FetchOutcome RemoteProgress)
    (t : Nat) (st : SyncState) :
    (syncGetCourseProgress c resp t st).2.store = st.store ∨
    ∃ r, resp = FetchOutcome.ok r ∧ remoteCapable st = true ∧
      (syncGetCourseProgress c resp t st).2.store =
        updateCourseProgress c (toCPPatch (mergedOf c st r t)) st.userId t st.store := by
  by_cases hcp : remoteCapable st = true
  · cases resp with
    | ok r =>
        refine Or.inr ⟨r, rfl, hcp, ?_⟩
        rw [syncGetCourseProgress_ok c r t st hcp]
    | fail => exact Or.inl (by simp [syncGetCourseProgress, hcp])
    | thrown => exact Or.inl (by simp [syncGetCourseProgress, hcp])
  · have hcp' : remoteCapable st = false := by simpa using hcp
    exact Or.inl (by cases resp <;> simp [syncGetCourseProgress, hcp'])

/-- C6: every CourseProgress record in any store reachable by the local
store operations and by the coordinator's merge (against remote percentage
values within their declared 0..100 range) has 0 ≤ overallProgress ≤ 100;
and the derived computation `calculateOverallProgress` always clamps into
[0, 100]. -/
theorem C6_progress_bound :
    (∀ s, StoreReachable s → progressInvariant s) ∧
    (∀ (c : Nat) (u : Option Nat) (s : Store),
      0 ≤ calculateOverallProgress c u s ∧ calculateOverallProgress c u s ≤ 100) := by
  constructor
  · intro s h
    induction h with
    | init => intro p hp; cases hp
    | enroll c u t _ ih =>
        intro p hp
        rcases enrollInFreeCourse_courseProgress_mem c u t _ p hp with h1 | h1
        · exact ih p h1
        · rw [h1]
          exact ⟨le_refl 0, by norm_num [zeroProgress]⟩
    | unenroll c u _ ih =>
        intro p hp
        exact ih p (List.mem_of_mem_filter hp)
    | mark l c u t _ ih => exact markLessonCompleted_progressInv l c u t _ ih
    | updLesson l c pch u t _ ih => exact fun p hp => ih p hp
    | syncGet c resp t hasApi uid onl q _ hvalid ih =>
        rename_i s0 _
        rcases syncGetCourseProgress_store_cases c resp t ⟨hasApi, uid, onl, q, s0⟩
          with h1 | ⟨r, hre, hcp, h1⟩
        · intro p hp
          rw [h1] at hp
          exact ih p hp
        · intro p hp
          rw [h1] at hp
          refine progressInv_updCPList c uid _ t ?_ s0.courseProgress
            (fun x hx => ih x hx) p hp
          intro v hv
          have hv' : some (mergedOf c ⟨hasApi, uid, onl, q, s0⟩ r t).overallProgress =
              some v := hv
          rw [← Option.some.inj hv']
          refine mergeProgress_overall_range c uid _ r t ?_ ?_
          · intro v' hv'
            exact hvalid r v' hre hv'
          · intro lp hlp
            exact ih lp (List.mem_of_find?_eq_some hlp)
  · intro c u s
    exact calculateOverallProgress_range c u s

theorem C6_progress_bound_witness :
    progressInvariant
      (markLessonCompleted 3 1 none 1 (enrollInFreeCourse 1 none 0 emptyStore).2) ∧
    (0 ≤ calculateOverallProgress 1 none emptyStore ∧
      calculateOverallProgress 1 none emptyStore ≤ 100) :=
  ⟨C6_progress_bound.1 _
    (StoreReachable.mark 3 1 none 1 (StoreReachable.enroll 1 none 0 StoreReachable.init)),
   C6_progress_bound.2 1 none emptyStore⟩
